import Mathlib

/-!
# Tokenizer: key lifecycle of the Crypto-PAn and HMAC-SHA256 tokenizers

Shallow embedding of `tokenizer_cryptopan.go` and `tokenizer_hmac.go`.

* A `[]byte` is a `List Byte`; a nil slice and an empty slice are both `[]`
  (the source only ever looks at `len`).
* The embedded `sync.RWMutex` is left out: every function below is one
  critical section, executed sequentially.
* A Go result `(value, error)` is a `Res`: `ok v` for `(v, nil)`, `error e` for
  `(nil, e)`, and `panic` for a run-time panic (a call through a nil pointer).
* `m.numTokenized.With(Labels{outcome: l}).Inc()` is recorded by returning the
  list of labels incremented during the call next to the result.
* The packages the source imports (`crypto/rand`, `crypto/sha256`,
  `crypto/hmac`, `uuid`, `cryptopan`) are not part of the repository. The hash
  primitives are parameters (`External`); the random source is an explicit
  argument; the Crypto-PAn primitive is modelled from the specification.
-/

namespace Tokenizer

/-- One byte of a blob, key or token. -/
abbrev Byte := Fin 256

/-- Type `token` of the source: a byte slice. -/
abbrev token := List Byte

/-- Errors that the operations return. `errNoKey` and `errBadBlobLen` are the
two package-level errors of `tokenizer_cryptopan.go`; `errRand` stands for the
error of `rand.Read`, `keySizeError` for the one of `cryptopan.New`. -/
inductive Err where
  | errNoKey
  | errBadBlobLen
  | errRand
  | keySizeError (n : Nat)
  deriving DecidableEq

/-- Result of a Go call returning `(value, error)`, or panicking. -/
inductive Res (α : Type) where
  | ok (a : α)
  | error (e : Err)
  | panic
  deriving DecidableEq

/-- Mapping over the value of a successful result. -/
def Res.map {α β : Type} (f : α → β) : Res α → Res β
  | .ok a => .ok (f a)
  | .error e => .error e
  | .panic => .panic

/-- Modelled from the spec: the outcome labels of the metrics sink (`success`
and `failBecause(err)` are declared outside the two source files): one label for
success and one per stringified failure kind. -/
inductive Label where
  | success
  | failBecause (e : Err)
  deriving DecidableEq

/-- Struct `keyID` of the source: a wrapper around a UUID. -/
structure keyID where
  UUID : List Byte
  deriving DecidableEq

/-- The imported hash primitives, taken as parameters.
`sha256Sum256` is `sha256.Sum256`, `hmacSHA256 key msg` is
`hmac.New(sha256.New, key)` followed by `Write(msg)` and `Sum(nil)` (a digest of
`sha256.Size = 32` bytes), `uuidNewSHA1 space name` is `uuid.NewSHA1`,
`uuidNamespace` is the package-level namespace constant, and
`cipherBit key bits` is the pseudorandom bit obtained by encrypting the padded
bit string `bits` under the block cipher keyed with `key`. -/
structure External where
  sha256Sum256 : List Byte → List Byte
  hmacSHA256 : List Byte → List Byte → List Byte
  hmacSHA256_size : ∀ key msg, (hmacSHA256 key msg).length = 32
  uuidNewSHA1 : List Byte → List Byte → List Byte
  uuidNamespace : List Byte
  cipherBit : List Byte → List Bool → Bool

/-- Call `rand.Read(b)`: the random source delivers the bytes `supply`. When it
delivers at least `len(b)` bytes the buffer is filled and the error is nil;
otherwise only the delivered bytes are written and an error is returned. -/
def randRead (supply : List Byte) (b : List Byte) : List Byte × Option Err :=
  if b.length ≤ supply.length then (supply.take b.length, none)
  else (supply ++ b.drop supply.length, some Err.errRand)

/-! ## Crypto-PAn primitive -/

/-- The eight bits of a byte, most significant first. -/
def byteToBits (b : Byte) : List Bool :=
  [b.val / 128 % 2 == 1, b.val / 64 % 2 == 1, b.val / 32 % 2 == 1, b.val / 16 % 2 == 1,
   b.val / 8 % 2 == 1, b.val / 4 % 2 == 1, b.val / 2 % 2 == 1, b.val % 2 == 1]

/-- The byte spelled by a bit string, most significant first. -/
def bitsToByte (bs : List Bool) : Byte :=
  Fin.ofNat (bs.foldl (fun acc b => 2 * acc + b.toNat) 0)

/-- Bits of a byte string. -/
def bytesToBits : List Byte → List Bool
  | [] => []
  | b :: bs => byteToBits b ++ bytesToBits bs

/-- Bytes of a bit string, eight bits at a time. -/
def bitsToBytes : List Bool → List Byte
  | b0 :: b1 :: b2 :: b3 :: b4 :: b5 :: b6 :: b7 :: rest =>
      bitsToByte [b0, b1, b2, b3, b4, b5, b6, b7] :: bitsToBytes rest
  | _ => []

namespace cryptopan

/-- Modelled from the spec: constant `cryptopan.Size` of the imported Crypto-PAn
package, the key size the block-cipher-backed strategy requires (16 bytes). -/
def Size : Nat := 16

/-- Modelled from the spec: type `cryptopan.Cryptopan`, the derived cipher
state; it is the block cipher keyed with the bytes it was built from. -/
structure Cryptopan where
  key : List Byte
  deriving DecidableEq

/-- Modelled from the spec: constructor `cryptopan.New` of the imported package;
building the derived state fails when the key does not have the size the
primitive requires. -/
def New (key : List Byte) : Except Err Cryptopan :=
  if key.length = Size then .ok ⟨key⟩ else .error (Err.keySizeError key.length)

/-- Modelled from the spec: bit-by-bit anonymisation; output bit `i` is input
bit `i` XORed with a pseudorandom bit generated from the first `i` input bits
(`seen`) under the keyed cipher. -/
def anonymizeBits (prf : List Bool → Bool) (seen : List Bool) : List Bool → List Bool
  | [] => []
  | b :: bs => (b != prf seen) :: anonymizeBits prf (seen ++ [b]) bs

/-- Modelled from the spec: method `Anonymize` of the imported Crypto-PAn
package, the prefix-preserving anonymisation of an address blob. -/
def Cryptopan.Anonymize (E : External) (ctx : Cryptopan) (addr : List Byte) : List Byte :=
  bitsToBytes (anonymizeBits (E.cipherBit ctx.key) [] (bytesToBits addr))

end cryptopan

/-! ## tokenizer_cryptopan.go -/

/-- Constant `ipv4Len`. -/
def ipv4Len : Nat := 4

/-- Constant `ipv6Len`. -/
def ipv6Len : Nat := 16

/-- Struct `cryptoPAnTokenizer`: the pointer `cryptoPAn` (nil is `none`) and the
key. -/
structure cryptoPAnTokenizer where
  cryptoPAn : Option cryptopan.Cryptopan
  key : List Byte
  deriving DecidableEq

/-- Function `newCryptoPAnTokenizer`: the zero value of the struct. -/
def newCryptoPAnTokenizer : cryptoPAnTokenizer :=
  { cryptoPAn := none, key := [] }

namespace cryptoPAnTokenizer

/-- Method `isBlobSupported`. -/
def isBlobSupported (_c : cryptoPAnTokenizer) (b : List Byte) : Bool :=
  b.length == ipv4Len || b.length == ipv6Len

/-- Method `keyID`: a pointer to a fresh `keyID`, never nil. -/
def keyID (E : External) (c : cryptoPAnTokenizer) : Option Tokenizer.keyID :=
  let sum := E.sha256Sum256 c.key
  some { UUID := E.uuidNewSHA1 E.uuidNamespace sum }

/-- Method `tokenize`; `blob` is `s.bytes()`. Calling `Anonymize` through a nil
`c.cryptoPAn` panics, after the success label has been recorded. -/
def tokenize (E : External) (c : cryptoPAnTokenizer) (blob : List Byte) :
    Res token × List Label :=
  if c.key.length == 0 then
    (.error Err.errNoKey, [Label.failBecause Err.errNoKey])
  else if !c.isBlobSupported blob then
    (.error Err.errBadBlobLen, [Label.failBecause Err.errBadBlobLen])
  else
    match c.cryptoPAn with
    | none => (.panic, [Label.success])
    | some ctx => (.ok (ctx.Anonymize E blob), [Label.success])

/-- Method `tokenizeAndKeyID`. -/
def tokenizeAndKeyID (E : External) (c : cryptoPAnTokenizer) (blob : List Byte) :
    Res (token × Option Tokenizer.keyID) × List Label :=
  if c.key.length == 0 then
    (.error Err.errNoKey, [Label.failBecause Err.errNoKey])
  else if !c.isBlobSupported blob then
    (.error Err.errBadBlobLen, [Label.failBecause Err.errBadBlobLen])
  else
    match c.cryptoPAn with
    | none => (.panic, [Label.success])
    | some ctx => (.ok (ctx.Anonymize E blob, c.keyID E), [Label.success])

/-- Method `resetKey`; `supply` is what the random source delivers to this
call. The key field is assigned the fresh buffer before `rand.Read` runs and
`rand.Read` writes into it in place; `c.cryptoPAn` is assigned the result of
`cryptopan.New` (nil on error) before the error is checked. -/
def resetKey (supply : List Byte) (c : cryptoPAnTokenizer) :
    cryptoPAnTokenizer × Option Err :=
  let c1 := { c with key := List.replicate cryptopan.Size (0 : Byte) }
  let r := randRead supply c1.key
  let c2 := { c1 with key := r.1 }
  match r.2 with
  | some err => (c2, some err)
  | none =>
    match cryptopan.New c2.key with
    | .error err => ({ c2 with cryptoPAn := none }, some err)
    | .ok ctx => ({ c2 with cryptoPAn := some ctx }, none)

/-- Method `preservesLen`. -/
def preservesLen (_c : cryptoPAnTokenizer) : Bool := true

end cryptoPAnTokenizer

/-! ## tokenizer_hmac.go -/

/-- Constant `hmacKeySize`, in bytes. -/
def hmacKeySize : Nat := 20

/-- Struct `hmacTokenizer`. -/
structure hmacTokenizer where
  key : List Byte
  deriving DecidableEq

/-- Function `newHmacTokenizer`: the zero value of the struct. -/
def newHmacTokenizer : hmacTokenizer :=
  { key := [] }

namespace hmacTokenizer

/-- Method `keyID`: a pointer to a fresh `keyID`, never nil. -/
def keyID (E : External) (h : hmacTokenizer) : Option Tokenizer.keyID :=
  let sum := E.sha256Sum256 h.key
  some { UUID := E.uuidNewSHA1 E.uuidNamespace sum }

/-- Method `tokenize`; `blob` is `s.bytes()`. The method makes no call to the
metrics sink. -/
def tokenize (E : External) (h : hmacTokenizer) (blob : List Byte) :
    Res token × List Label :=
  if h.key.length == 0 then
    (.error Err.errNoKey, [])
  else
    (.ok (E.hmacSHA256 h.key blob), [])

/-- Method `tokenizeAndKeyID`. The method makes no call to the metrics sink. -/
def tokenizeAndKeyID (E : External) (h : hmacTokenizer) (blob : List Byte) :
    Res (token × Option Tokenizer.keyID) × List Label :=
  if h.key.length == 0 then
    (.error Err.errNoKey, [])
  else
    (.ok (E.hmacSHA256 h.key blob, h.keyID E), [])

/-- Method `resetKey`; `supply` is what the random source delivers to this
call. The key field is assigned the fresh buffer before `rand.Read` runs. -/
def resetKey (supply : List Byte) (h : hmacTokenizer) : hmacTokenizer × Option Err :=
  let h1 := { h with key := List.replicate hmacKeySize (0 : Byte) }
  let r := randRead supply h1.key
  ({ h1 with key := r.1 }, r.2)

/-- Method `preservesLen`. -/
def preservesLen (_h : hmacTokenizer) : Bool := false

end hmacTokenizer

/-! ## Sequences of calls -/

/-- A call of one of the operations of the tokenizer; `resetKey` carries what
the random source delivers to it, the tokenize-family calls carry the blob. -/
inductive Call where
  | resetKey (supply : List Byte)
  | tokenize (blob : List Byte)
  | tokenizeAndKeyID (blob : List Byte)
  | keyID
  deriving DecidableEq

/-- State of the Crypto-PAn tokenizer after one call: only `resetKey` writes
to the struct. -/
def cryptoPAnTokenizer.step (c : cryptoPAnTokenizer) : Call → cryptoPAnTokenizer
  | .resetKey supply => (c.resetKey supply).1
  | .tokenize _ => c
  | .tokenizeAndKeyID _ => c
  | .keyID => c

/-- State of the Crypto-PAn tokenizer after a sequence of calls. -/
def cryptoPAnTokenizer.run (c : cryptoPAnTokenizer) (calls : List Call) : cryptoPAnTokenizer :=
  calls.foldl cryptoPAnTokenizer.step c

/-- Key and cipher state agree: either there is no key and no cipher state, or
the key is non-empty and the cipher state is present and is the one
`cryptopan.New` builds from the current key bytes. -/
def cryptoPAnTokenizer.consistent (c : cryptoPAnTokenizer) : Prop :=
  (c.key = [] ∧ c.cryptoPAn = none) ∨
  (c.key ≠ [] ∧ c.cryptoPAn ≠ none ∧ (cryptopan.New c.key).toOption = c.cryptoPAn)

instance (c : cryptoPAnTokenizer) : Decidable c.consistent := by
  unfold cryptoPAnTokenizer.consistent
  infer_instance

/-! ## A concrete instance of the parameters -/

/-- A concrete choice of the imported primitives, used to evaluate the
operations on explicit inputs. The results proved below hold for every
`External`. -/
def sampleExternal : External where
  sha256Sum256 := fun m => (m ++ List.replicate 32 (Fin.ofNat m.length)).take 32
  hmacSHA256 := fun key msg =>
    (key ++ msg ++ List.replicate 32 (Fin.ofNat (key.length + msg.length))).take 32
  hmacSHA256_size := by intro key msg; simp; omega
  uuidNewSHA1 := fun space name => (name.take 12 ++ space ++ List.replicate 16 0).take 16
  uuidNamespace := [107, 167, 184, 16]
  cipherBit := fun key bits => (key.length + bits.count true) % 2 == 1

/-- Bytes delivered by the random source in the evaluations below: enough for
either strategy. -/
def sampleSupply : List Byte :=
  [11, 22, 33, 44, 55, 66, 77, 88, 99, 110, 121, 132, 143, 154, 165, 176, 187, 198, 209, 220]

/-- Crypto-PAn tokenizer after one successful `resetKey`. -/
def sampleCryptoPAn : cryptoPAnTokenizer :=
  (newCryptoPAnTokenizer.resetKey sampleSupply).1

/-- HMAC tokenizer after one successful `resetKey`. -/
def sampleHmac : hmacTokenizer :=
  (newHmacTokenizer.resetKey sampleSupply).1

/-! ## Theorems -/

/-- One byte of input: the first output byte, and how the remaining bytes are
anonymised. -/
theorem anonymize_cons (prf : List Bool → Bool) (seen : List Bool) (a : Byte)
    (as : List Byte) :
    bitsToBytes (cryptopan.anonymizeBits prf seen (bytesToBits (a :: as))) =
      bitsToByte (cryptopan.anonymizeBits prf seen (byteToBits a)) ::
        bitsToBytes (cryptopan.anonymizeBits prf (seen ++ byteToBits a) (bytesToBits as)) := by
  simp only [bytesToBits, byteToBits, List.cons_append, List.nil_append,
    cryptopan.anonymizeBits, bitsToBytes, List.append_assoc]
  rfl

/-- The anonymised blob has as many bytes as the blob. -/
theorem anonymize_length (prf : List Bool → Bool) (A : List Byte) :
    ∀ seen : List Bool,
      (bitsToBytes (cryptopan.anonymizeBits prf seen (bytesToBits A))).length = A.length := by
  induction A with
  | nil => intro seen; simp [bytesToBits, cryptopan.anonymizeBits, bitsToBytes]
  | cons a as ih =>
    intro seen
    rw [anonymize_cons, List.length_cons, ih, List.length_cons]

/-- Blobs that agree on their first `k` bytes are anonymised to blobs that
agree on their first `k` bytes. -/
theorem anonymize_take (prf : List Bool → Bool) (k : Nat) :
    ∀ (seen : List Bool) (A B : List Byte), A.take k = B.take k →
      (bitsToBytes (cryptopan.anonymizeBits prf seen (bytesToBits A))).take k =
        (bitsToBytes (cryptopan.anonymizeBits prf seen (bytesToBits B))).take k := by
  induction k with
  | zero => intro seen A B _; simp
  | succ k ih =>
    intro seen A B h
    cases A with
    | nil =>
      cases B with
      | nil => rfl
      | cons b bs => simp at h
    | cons a as =>
      cases B with
      | nil => simp at h
      | cons b bs =>
        rw [List.take_succ_cons, List.take_succ_cons] at h
        injection h with hab htl
        subst hab
        rw [anonymize_cons, anonymize_cons, List.take_succ_cons, List.take_succ_cons,
          ih _ as bs htl]

/-- C1: on a newly created tokenizer of either strategy, `tokenize` and
`tokenizeAndKeyID` return `errNoKey` (and no token) for every blob, whatever
its length. -/
theorem new_tokenizer_errNoKey (E : External) (blob : List Byte) :
    (newCryptoPAnTokenizer.tokenize E blob).1 = Res.error Err.errNoKey ∧
    (newCryptoPAnTokenizer.tokenizeAndKeyID E blob).1 = Res.error Err.errNoKey ∧
    (newHmacTokenizer.tokenize E blob).1 = Res.error Err.errNoKey ∧
    (newHmacTokenizer.tokenizeAndKeyID E blob).1 = Res.error Err.errNoKey := by
  refine ⟨rfl, rfl, rfl, rfl⟩

/-- Method `isBlobSupported` accepts exactly the lengths 4 and 16. -/
theorem isBlobSupported_iff (c : cryptoPAnTokenizer) (b : List Byte) :
    c.isBlobSupported b = true ↔ (b.length = 4 ∨ b.length = 16) := by
  simp [cryptoPAnTokenizer.isBlobSupported, ipv4Len, ipv6Len]

/-- Without a key `tokenize` fails with `errNoKey` and records that failure. -/
theorem cryptoPAn_tokenize_noKey (E : External) (c : cryptoPAnTokenizer) (blob : List Byte)
    (hkey : c.key = []) :
    c.tokenize E blob = (Res.error Err.errNoKey, [Label.failBecause Err.errNoKey]) := by
  simp [cryptoPAnTokenizer.tokenize, hkey]

/-- With a key, an unsupported blob fails with `errBadBlobLen`. -/
theorem cryptoPAn_tokenize_badLen (E : External) (c : cryptoPAnTokenizer) (blob : List Byte)
    (hkey : c.key ≠ []) (hlen : ¬ (blob.length = 4 ∨ blob.length = 16)) :
    c.tokenize E blob =
      (Res.error Err.errBadBlobLen, [Label.failBecause Err.errBadBlobLen]) := by
  have hk : c.key.length ≠ 0 := fun h => hkey (List.length_eq_zero.mp h)
  have hs : c.isBlobSupported blob = false := by
    rw [← Bool.not_eq_true, isBlobSupported_iff]; exact hlen
  simp [cryptoPAnTokenizer.tokenize, hk, hs]

/-- The Crypto-PAn tokenizer with a non-empty key and a cipher state answers a
supported blob with the cipher's anonymisation of it. -/
theorem cryptoPAn_tokenize_ok (E : External) (c : cryptoPAnTokenizer)
    (ctx : cryptopan.Cryptopan) (blob : List Byte) (hkey : c.key ≠ [])
    (hctx : c.cryptoPAn = some ctx) (hlen : blob.length = 4 ∨ blob.length = 16) :
    c.tokenize E blob = (Res.ok (ctx.Anonymize E blob), [Label.success]) := by
  have hk : c.key.length ≠ 0 := fun h => hkey (List.length_eq_zero.mp h)
  have hs : c.isBlobSupported blob = true := (isBlobSupported_iff c blob).mpr hlen
  simp [cryptoPAnTokenizer.tokenize, hk, hs, hctx]

/-- With a non-empty key but a nil cipher pointer, a supported blob makes
`tokenize` panic. -/
theorem cryptoPAn_tokenize_nil (E : External) (c : cryptoPAnTokenizer) (blob : List Byte)
    (hkey : c.key ≠ []) (hctx : c.cryptoPAn = none)
    (hlen : blob.length = 4 ∨ blob.length = 16) :
    c.tokenize E blob = (Res.panic, [Label.success]) := by
  have hk : c.key.length ≠ 0 := fun h => hkey (List.length_eq_zero.mp h)
  have hs : c.isBlobSupported blob = true := (isBlobSupported_iff c blob).mpr hlen
  simp [cryptoPAnTokenizer.tokenize, hk, hs, hctx]

/-- Method `tokenizeAndKeyID` is `tokenize` with the result of `keyID` attached
to a returned token; it records the same labels. -/
theorem cryptoPAn_tokenizeAndKeyID_eq (E : External) (c : cryptoPAnTokenizer)
    (blob : List Byte) :
    c.tokenizeAndKeyID E blob =
      ((c.tokenize E blob).1.map (fun t => (t, c.keyID E)), (c.tokenize E blob).2) := by
  unfold cryptoPAnTokenizer.tokenizeAndKeyID cryptoPAnTokenizer.tokenize
  split
  · rfl
  · split
    · rfl
    · cases c.cryptoPAn <;> rfl

/-- Method `tokenizeAndKeyID` of the HMAC tokenizer is `tokenize` with the
result of `keyID` attached to a returned token. -/
theorem hmac_tokenizeAndKeyID_eq (E : External) (h : hmacTokenizer) (blob : List Byte) :
    h.tokenizeAndKeyID E blob =
      ((h.tokenize E blob).1.map (fun t => (t, h.keyID E)), (h.tokenize E blob).2) := by
  unfold hmacTokenizer.tokenizeAndKeyID hmacTokenizer.tokenize
  split <;> rfl

/-- C3: with an initialised key, the Crypto-PAn tokenizer maps two blobs that
are both 4 or both 16 bytes long and agree on their first `k` bytes to tokens
that agree on their first `k` bytes, and each token is as long as its blob. -/
theorem cryptoPAn_tokenize_preserves_shared_bytes (E : External) (c : cryptoPAnTokenizer)
    (ctx : cryptopan.Cryptopan) (A B : List Byte) (k : Nat)
    (hkey : c.key ≠ []) (hctx : c.cryptoPAn = some ctx)
    (hlen : (A.length = 4 ∧ B.length = 4) ∨ (A.length = 16 ∧ B.length = 16))
    (hk : A.take k = B.take k) :
    ∃ tA tB : token,
      (c.tokenize E A).1 = Res.ok tA ∧ (c.tokenize E B).1 = Res.ok tB ∧
      tA.take k = tB.take k ∧ tA.length = A.length ∧ tB.length = B.length := by
  have hA : A.length = 4 ∨ A.length = 16 := by
    rcases hlen with h | h
    · exact Or.inl h.1
    · exact Or.inr h.1
  have hB : B.length = 4 ∨ B.length = 16 := by
    rcases hlen with h | h
    · exact Or.inl h.2
    · exact Or.inr h.2
  refine ⟨ctx.Anonymize E A, ctx.Anonymize E B, ?_, ?_, ?_, ?_, ?_⟩
  · rw [cryptoPAn_tokenize_ok E c ctx A hkey hctx hA]
  · rw [cryptoPAn_tokenize_ok E c ctx B hkey hctx hB]
  · exact anonymize_take _ k [] A B hk
  · exact anonymize_length _ A []
  · exact anonymize_length _ B []

/-- Witness for C3: two IPv4 blobs sharing their first two bytes, under the
key of one successful `resetKey`. -/
theorem cryptoPAn_tokenize_preserves_shared_bytes_witness :
    ∃ tA tB : token,
      (sampleCryptoPAn.tokenize sampleExternal [10, 0, 3, 200]).1 = Res.ok tA ∧
      (sampleCryptoPAn.tokenize sampleExternal [10, 0, 77, 5]).1 = Res.ok tB ∧
      tA.take 2 = tB.take 2 ∧ tA.length = ([10, 0, 3, 200] : List Byte).length ∧
      tB.length = ([10, 0, 77, 5] : List Byte).length :=
  cryptoPAn_tokenize_preserves_shared_bytes sampleExternal sampleCryptoPAn
    ⟨sampleSupply.take 16⟩ [10, 0, 3, 200] [10, 0, 77, 5] 2 (by decide) (by decide)
    (by decide) (by decide)

/-- C4: with an initialised key, `tokenize` and `tokenizeAndKeyID` of the
Crypto-PAn tokenizer return `errBadBlobLen` exactly for the blobs whose length
is neither 4 nor 16 and succeed for every blob of length 4 or 16; the HMAC
tokenizer never returns `errBadBlobLen`. -/
theorem errBadBlobLen_iff_unsupported_length (E : External) (c : cryptoPAnTokenizer)
    (ctx : cryptopan.Cryptopan) (h : hmacTokenizer) (blob : List Byte)
    (hkey : c.key ≠ []) (hctx : c.cryptoPAn = some ctx) :
    ((c.tokenize E blob).1 = Res.error Err.errBadBlobLen ↔
        ¬ (blob.length = 4 ∨ blob.length = 16)) ∧
    ((c.tokenizeAndKeyID E blob).1 = Res.error Err.errBadBlobLen ↔
        ¬ (blob.length = 4 ∨ blob.length = 16)) ∧
    ((blob.length = 4 ∨ blob.length = 16) →
        (∃ t, (c.tokenize E blob).1 = Res.ok t) ∧
        (∃ t id, (c.tokenizeAndKeyID E blob).1 = Res.ok (t, id))) ∧
    (h.tokenize E blob).1 ≠ Res.error Err.errBadBlobLen ∧
    (h.tokenizeAndKeyID E blob).1 ≠ Res.error Err.errBadBlobLen := by
  refine ⟨?_, ?_, ?_, ?_, ?_⟩
  · by_cases hs : blob.length = 4 ∨ blob.length = 16
    · rw [cryptoPAn_tokenize_ok E c ctx blob hkey hctx hs]
      simp [hs]
    · rw [cryptoPAn_tokenize_badLen E c blob hkey hs]
      simp [hs]
  · rw [cryptoPAn_tokenizeAndKeyID_eq]
    by_cases hs : blob.length = 4 ∨ blob.length = 16
    · rw [cryptoPAn_tokenize_ok E c ctx blob hkey hctx hs]
      simp [Res.map, hs]
    · rw [cryptoPAn_tokenize_badLen E c blob hkey hs]
      simp [Res.map, hs]
  · intro hs
    rw [cryptoPAn_tokenizeAndKeyID_eq, cryptoPAn_tokenize_ok E c ctx blob hkey hctx hs]
    exact ⟨⟨_, rfl⟩, ⟨_, _, rfl⟩⟩
  · unfold hmacTokenizer.tokenize
    split <;> simp
  · unfold hmacTokenizer.tokenizeAndKeyID
    split <;> simp

/-- Witness for C4: a 5-byte blob under the key of one successful `resetKey`. -/
theorem errBadBlobLen_iff_unsupported_length_witness :
    ((sampleCryptoPAn.tokenize sampleExternal [1, 2, 3, 4, 5]).1 = Res.error Err.errBadBlobLen ↔
        ¬ (([1, 2, 3, 4, 5] : List Byte).length = 4 ∨ ([1, 2, 3, 4, 5] : List Byte).length = 16)) ∧
    ((sampleCryptoPAn.tokenizeAndKeyID sampleExternal [1, 2, 3, 4, 5]).1 =
        Res.error Err.errBadBlobLen ↔
        ¬ (([1, 2, 3, 4, 5] : List Byte).length = 4 ∨ ([1, 2, 3, 4, 5] : List Byte).length = 16)) ∧
    ((([1, 2, 3, 4, 5] : List Byte).length = 4 ∨ ([1, 2, 3, 4, 5] : List Byte).length = 16) →
        (∃ t, (sampleCryptoPAn.tokenize sampleExternal [1, 2, 3, 4, 5]).1 = Res.ok t) ∧
        (∃ t id, (sampleCryptoPAn.tokenizeAndKeyID sampleExternal [1, 2, 3, 4, 5]).1 =
          Res.ok (t, id))) ∧
    (sampleHmac.tokenize sampleExternal [1, 2, 3, 4, 5]).1 ≠ Res.error Err.errBadBlobLen ∧
    (sampleHmac.tokenizeAndKeyID sampleExternal [1, 2, 3, 4, 5]).1 ≠
      Res.error Err.errBadBlobLen :=
  errBadBlobLen_iff_unsupported_length sampleExternal sampleCryptoPAn
    ⟨sampleSupply.take 16⟩ sampleHmac [1, 2, 3, 4, 5] (by decide) (by decide)

/-- C5, as stated, fails: on the newly created tokenizers, which hold no key,
`keyID` does not fail but returns a KeyID. -/
theorem keyID_without_key_returns_id :
    (newHmacTokenizer.key = [] ∧ newHmacTokenizer.keyID sampleExternal ≠ none) ∧
    (newCryptoPAnTokenizer.key = [] ∧ newCryptoPAnTokenizer.keyID sampleExternal ≠ none) := by
  decide

/-- Only an empty key makes the Crypto-PAn `tokenize` return `errNoKey`. -/
theorem cryptoPAn_tokenize_errNoKey_iff (E : External) (c : cryptoPAnTokenizer)
    (blob : List Byte) :
    (c.tokenize E blob).1 = Res.error Err.errNoKey ↔ c.key = [] := by
  constructor
  · intro h
    by_contra hkey
    have hk : c.key.length ≠ 0 := fun h0 => hkey (List.length_eq_zero.mp h0)
    by_cases hs : blob.length = 4 ∨ blob.length = 16
    · have hsup : c.isBlobSupported blob = true := (isBlobSupported_iff c blob).mpr hs
      cases hctx : c.cryptoPAn <;>
        simp [cryptoPAnTokenizer.tokenize, hk, hsup, hctx] at h
    · rw [cryptoPAn_tokenize_badLen E c blob hkey hs] at h
      simp at h
  · intro hkey
    rw [cryptoPAn_tokenize_noKey E c blob hkey]

/-- Only an empty key makes the HMAC `tokenize` return `errNoKey`. -/
theorem hmac_tokenize_errNoKey_iff (E : External) (h : hmacTokenizer) (blob : List Byte) :
    (h.tokenize E blob).1 = Res.error Err.errNoKey ↔ h.key = [] := by
  unfold hmacTokenizer.tokenize
  constructor
  · intro hr
    by_contra hkey
    have hk : h.key.length ≠ 0 := fun h0 => hkey (List.length_eq_zero.mp h0)
    simp [hk] at hr
  · intro hkey
    simp [hkey]

/-- Method `resetKey` of the Crypto-PAn tokenizer returns no error or the error
of the random read. -/
theorem cryptoPAn_resetKey_err (supply : List Byte) (c : cryptoPAnTokenizer) :
    (c.resetKey supply).2 = none ∨ (c.resetKey supply).2 = some Err.errRand := by
  unfold cryptoPAnTokenizer.resetKey randRead cryptopan.New
  by_cases hs : cryptopan.Size ≤ supply.length
  · left
    have hmin : min cryptopan.Size supply.length = cryptopan.Size := Nat.min_eq_left hs
    simp [hs, hmin]
  · right
    simp [hs]

/-- Method `resetKey` of the HMAC tokenizer returns no error or the error of
the random read. -/
theorem hmac_resetKey_err (supply : List Byte) (h : hmacTokenizer) :
    (h.resetKey supply).2 = none ∨ (h.resetKey supply).2 = some Err.errRand := by
  unfold hmacTokenizer.resetKey randRead
  by_cases hs : hmacKeySize ≤ supply.length
  · left; simp [hs]
  · right; simp [hs]

/-- C5, amended: for both strategies and in every state, with or without a key,
`keyID` returns a KeyID and has no failure result; the KeyID is the UUIDv5 under
the package namespace of the SHA-256 digest of the current key bytes, so it
depends on the key bytes alone and is that of the empty byte string when no key
is set. `errNoKey` is returned by `tokenize` and `tokenizeAndKeyID` exactly when
the key is empty, and never by `resetKey`. -/
theorem keyID_total (E : External) (c c₂ : cryptoPAnTokenizer) (h : hmacTokenizer)
    (blob supply : List Byte) :
    (c.keyID E ≠ none ∧ h.keyID E ≠ none) ∧
    (c.keyID E = some { UUID := E.uuidNewSHA1 E.uuidNamespace (E.sha256Sum256 c.key) } ∧
     h.keyID E = some { UUID := E.uuidNewSHA1 E.uuidNamespace (E.sha256Sum256 h.key) }) ∧
    ((c.key = [] →
        c.keyID E = some { UUID := E.uuidNewSHA1 E.uuidNamespace (E.sha256Sum256 []) }) ∧
     (h.key = [] →
        h.keyID E = some { UUID := E.uuidNewSHA1 E.uuidNamespace (E.sha256Sum256 []) }) ∧
     newCryptoPAnTokenizer.keyID E =
       some { UUID := E.uuidNewSHA1 E.uuidNamespace (E.sha256Sum256 []) } ∧
     newHmacTokenizer.keyID E =
       some { UUID := E.uuidNewSHA1 E.uuidNamespace (E.sha256Sum256 []) }) ∧
    ((c.key = c₂.key → c.keyID E = c₂.keyID E) ∧ (c.key = h.key → c.keyID E = h.keyID E)) ∧
    (((c.tokenize E blob).1 = Res.error Err.errNoKey ↔ c.key = []) ∧
     ((c.tokenizeAndKeyID E blob).1 = Res.error Err.errNoKey ↔ c.key = []) ∧
     ((h.tokenize E blob).1 = Res.error Err.errNoKey ↔ h.key = []) ∧
     ((h.tokenizeAndKeyID E blob).1 = Res.error Err.errNoKey ↔ h.key = [])) ∧
    ((c.resetKey supply).2 ≠ some Err.errNoKey ∧ (h.resetKey supply).2 ≠ some Err.errNoKey) := by
  have hmapC : ∀ r : Res token,
      (r.map (fun t => (t, c.keyID E)) = Res.error Err.errNoKey ↔ r = Res.error Err.errNoKey) := by
    intro r; cases r <;> simp [Res.map]
  have hmapH : ∀ r : Res token,
      (r.map (fun t => (t, h.keyID E)) = Res.error Err.errNoKey ↔ r = Res.error Err.errNoKey) := by
    intro r; cases r <;> simp [Res.map]
  refine ⟨⟨?_, ?_⟩, ⟨rfl, rfl⟩, ⟨?_, ?_, rfl, rfl⟩, ⟨?_, ?_⟩, ⟨?_, ?_, ?_, ?_⟩, ⟨?_, ?_⟩⟩
  · simp [cryptoPAnTokenizer.keyID]
  · simp [hmacTokenizer.keyID]
  · intro hkey; simp [cryptoPAnTokenizer.keyID, hkey]
  · intro hkey; simp [hmacTokenizer.keyID, hkey]
  · intro hkey; simp [cryptoPAnTokenizer.keyID, hkey]
  · intro hkey; simp [cryptoPAnTokenizer.keyID, hmacTokenizer.keyID, hkey]
  · exact cryptoPAn_tokenize_errNoKey_iff E c blob
  · rw [cryptoPAn_tokenizeAndKeyID_eq]
    exact (hmapC _).trans (cryptoPAn_tokenize_errNoKey_iff E c blob)
  · exact hmac_tokenize_errNoKey_iff E h blob
  · rw [hmac_tokenizeAndKeyID_eq]
    exact (hmapH _).trans (hmac_tokenize_errNoKey_iff E h blob)
  · rcases cryptoPAn_resetKey_err supply c with hr | hr <;> rw [hr] <;> simp
  · rcases hmac_resetKey_err supply h with hr | hr <;> rw [hr] <;> simp

/-- In every state and for every blob, for both strategies, `tokenizeAndKeyID`
fails exactly when `tokenize` fails, with the same error; when it succeeds its
token is the one `tokenize` returns and its KeyID is the value of `keyID` in
that state, the UUIDv5 of the SHA-256 digest of the bytes in the key field. -/
theorem tokenizeAndKeyID_agrees (E : External) (c : cryptoPAnTokenizer) (h : hmacTokenizer)
    (blob : List Byte) :
    ((∀ e, (c.tokenizeAndKeyID E blob).1 = Res.error e ↔ (c.tokenize E blob).1 = Res.error e) ∧
     ((c.tokenizeAndKeyID E blob).1 = Res.panic ↔ (c.tokenize E blob).1 = Res.panic) ∧
     (∀ t, (c.tokenize E blob).1 = Res.ok t →
        (c.tokenizeAndKeyID E blob).1 = Res.ok (t, c.keyID E)) ∧
     (∀ t id, (c.tokenizeAndKeyID E blob).1 = Res.ok (t, id) →
        (c.tokenize E blob).1 = Res.ok t ∧ id = c.keyID E ∧
        id = some { UUID := E.uuidNewSHA1 E.uuidNamespace (E.sha256Sum256 c.key) })) ∧
    ((∀ e, (h.tokenizeAndKeyID E blob).1 = Res.error e ↔ (h.tokenize E blob).1 = Res.error e) ∧
     ((h.tokenizeAndKeyID E blob).1 = Res.panic ↔ (h.tokenize E blob).1 = Res.panic) ∧
     (∀ t, (h.tokenize E blob).1 = Res.ok t →
        (h.tokenizeAndKeyID E blob).1 = Res.ok (t, h.keyID E)) ∧
     (∀ t id, (h.tokenizeAndKeyID E blob).1 = Res.ok (t, id) →
        (h.tokenize E blob).1 = Res.ok t ∧ t = E.hmacSHA256 h.key blob ∧ id = h.keyID E ∧
        id = some { UUID := E.uuidNewSHA1 E.uuidNamespace (E.sha256Sum256 h.key) })) := by
  constructor
  · rw [cryptoPAn_tokenizeAndKeyID_eq]
    generalize (c.tokenize E blob).1 = r
    cases r <;> simp [Res.map, cryptoPAnTokenizer.keyID]
  · have hval : ∀ t, (h.tokenize E blob).1 = Res.ok t → t = E.hmacSHA256 h.key blob := by
      intro t
      unfold hmacTokenizer.tokenize
      split
      · intro ht; cases ht
      · intro ht; injection ht with ht; exact ht.symm
    rw [hmac_tokenizeAndKeyID_eq]
    revert hval
    generalize (h.tokenize E blob).1 = r
    intro hval
    cases r with
    | ok a =>
      have := hval a rfl
      simp [Res.map, hmacTokenizer.keyID, this]
    | error e => simp [Res.map]
    | panic => simp [Res.map]

/-- C7: with an initialised key the HMAC tokenizer succeeds on every blob, the
empty one included, and returns the 32-byte HMAC-SHA256 of the blob under the
current key. -/
theorem hmac_tokenize_digest (E : External) (h : hmacTokenizer) (blob : List Byte)
    (hkey : h.key ≠ []) :
    (h.tokenize E blob).1 = Res.ok (E.hmacSHA256 h.key blob) ∧
    (E.hmacSHA256 h.key blob).length = 32 := by
  have hk : h.key.length ≠ 0 := fun h0 => hkey (List.length_eq_zero.mp h0)
  exact ⟨by simp [hmacTokenizer.tokenize, hk], E.hmacSHA256_size _ _⟩

/-- Witness for C7: the empty blob under the key of one successful `resetKey`. -/
theorem hmac_tokenize_digest_witness :
    (sampleHmac.tokenize sampleExternal []).1 =
      Res.ok (sampleExternal.hmacSHA256 sampleHmac.key []) ∧
    (sampleExternal.hmacSHA256 sampleHmac.key []).length = 32 :=
  hmac_tokenize_digest sampleExternal sampleHmac [] (by decide)

/-- Every call of the Crypto-PAn `tokenize` and `tokenizeAndKeyID` records
exactly one label: `success` when a token is returned, the label of the error
when an error is returned. -/
theorem cryptoPAn_records_one_outcome (E : External) (c : cryptoPAnTokenizer)
    (blob : List Byte) :
    (∀ t, (c.tokenize E blob).1 = Res.ok t → (c.tokenize E blob).2 = [Label.success]) ∧
    (∀ e, (c.tokenize E blob).1 = Res.error e →
      (c.tokenize E blob).2 = [Label.failBecause e]) ∧
    (c.tokenizeAndKeyID E blob).2 = (c.tokenize E blob).2 := by
  refine ⟨?_, ?_, ?_⟩
  · intro t
    unfold cryptoPAnTokenizer.tokenize
    split
    · intro h; cases h
    · split
      · intro h; cases h
      · cases c.cryptoPAn <;> simp
  · intro e
    unfold cryptoPAnTokenizer.tokenize
    split
    · intro h; injection h with h; subst h; rfl
    · split
      · intro h; injection h with h; subst h; rfl
      · cases c.cryptoPAn <;> simp
  · rw [cryptoPAn_tokenizeAndKeyID_eq]

/-- C8 fails for the HMAC tokenizer: its `tokenize` and `tokenizeAndKeyID`
record no outcome, neither for the error on a tokenizer without a key nor for
the token returned under a key. -/
theorem hmac_records_no_outcome :
    newHmacTokenizer.tokenize sampleExternal [1, 2, 3, 4] = (Res.error Err.errNoKey, []) ∧
    (newHmacTokenizer.tokenizeAndKeyID sampleExternal [1, 2, 3, 4]).1 = Res.error Err.errNoKey ∧
    (newHmacTokenizer.tokenizeAndKeyID sampleExternal [1, 2, 3, 4]).2 = [] ∧
    (sampleHmac.tokenize sampleExternal [1, 2, 3, 4]).1 =
      Res.ok (sampleExternal.hmacSHA256 sampleHmac.key [1, 2, 3, 4]) ∧
    (sampleHmac.tokenize sampleExternal [1, 2, 3, 4]).2 = [] ∧
    (sampleHmac.tokenizeAndKeyID sampleExternal [1, 2, 3, 4]).2 = [] ∧
    (newCryptoPAnTokenizer.tokenize sampleExternal [1, 2, 3, 4]).2 =
      [Label.failBecause Err.errNoKey] := by
  decide

/-- The HMAC tokenizer records no outcome in any state and for any blob. -/
theorem hmac_records_nothing (E : External) (h : hmacTokenizer) (blob : List Byte) :
    (h.tokenize E blob).2 = [] ∧ (h.tokenizeAndKeyID E blob).2 = [] := by
  unfold hmacTokenizer.tokenize hmacTokenizer.tokenizeAndKeyID
  constructor <;> split <;> rfl

/-- Call `rand.Read` succeeds exactly when the source delivers enough bytes. -/
theorem randRead_snd (supply b : List Byte) :
    (randRead supply b).2 = none ↔ b.length ≤ supply.length := by
  unfold randRead
  split <;> simp_all

/-- A `resetKey` of the Crypto-PAn tokenizer that is given at least
`cryptopan.Size` random bytes installs them as the key, together with the
cipher state built from them. -/
theorem cryptoPAn_resetKey_enough (supply : List Byte) (c : cryptoPAnTokenizer)
    (hs : cryptopan.Size ≤ supply.length) :
    c.resetKey supply =
      ({ cryptoPAn := some ⟨supply.take cryptopan.Size⟩, key := supply.take cryptopan.Size },
        none) := by
  have hmin : min cryptopan.Size supply.length = cryptopan.Size := Nat.min_eq_left hs
  simp [cryptoPAnTokenizer.resetKey, randRead, hs, cryptopan.New, hmin]

/-- A `resetKey` of the Crypto-PAn tokenizer that is given fewer than
`cryptopan.Size` random bytes returns the error of `rand.Read`, leaves the
cipher state as it was and leaves the partly filled buffer as the key. -/
theorem cryptoPAn_resetKey_short (supply : List Byte) (c : cryptoPAnTokenizer)
    (hs : supply.length < cryptopan.Size) :
    c.resetKey supply =
      ({ cryptoPAn := c.cryptoPAn,
         key := supply ++ List.replicate (cryptopan.Size - supply.length) 0 },
        some Err.errRand) := by
  have hn : ¬ cryptopan.Size ≤ supply.length := Nat.not_le.mpr hs
  simp [cryptoPAnTokenizer.resetKey, randRead, hn]

/-- A `resetKey` of the HMAC tokenizer that is given at least `hmacKeySize`
random bytes installs them as the key. -/
theorem hmac_resetKey_enough (supply : List Byte) (h : hmacTokenizer)
    (hs : hmacKeySize ≤ supply.length) :
    h.resetKey supply = ({ key := supply.take hmacKeySize }, none) := by
  simp [hmacTokenizer.resetKey, randRead, hs]

/-- A `resetKey` of the HMAC tokenizer that is given fewer than `hmacKeySize`
random bytes returns the error and leaves the partly filled buffer as key. -/
theorem hmac_resetKey_short (supply : List Byte) (h : hmacTokenizer)
    (hs : supply.length < hmacKeySize) :
    h.resetKey supply =
      ({ key := supply ++ List.replicate (hmacKeySize - supply.length) 0 },
        some Err.errRand) := by
  have hn : ¬ hmacKeySize ≤ supply.length := Nat.not_le.mpr hs
  simp [hmacTokenizer.resetKey, randRead, hn]

/-- C9: after a successful `resetKey` the tokenizer holds the freshly
generated bytes as its key: exactly 16 bytes for the Crypto-PAn tokenizer and
exactly 20 bytes for the HMAC tokenizer. -/
theorem resetKey_key_size (supplyC supplyH : List Byte) (c c' : cryptoPAnTokenizer)
    (h h' : hmacTokenizer) (hc : c.resetKey supplyC = (c', none))
    (hh : h.resetKey supplyH = (h', none)) :
    (c'.key.length = 16 ∧ c'.key = supplyC.take 16) ∧
    (h'.key.length = 20 ∧ h'.key = supplyH.take 20) := by
  constructor
  · by_cases hs : cryptopan.Size ≤ supplyC.length
    · rw [cryptoPAn_resetKey_enough supplyC c hs] at hc
      injection hc with hc _
      subst hc
      have h16 : 16 ≤ supplyC.length := hs
      simp [cryptopan.Size, h16]
    · rw [cryptoPAn_resetKey_short supplyC c (Nat.not_le.mp hs)] at hc
      injection hc with _ hc
      cases hc
  · by_cases hs : hmacKeySize ≤ supplyH.length
    · rw [hmac_resetKey_enough supplyH h hs] at hh
      injection hh with hh _
      subst hh
      have h20 : 20 ≤ supplyH.length := hs
      simp [hmacKeySize, h20]
    · rw [hmac_resetKey_short supplyH h (Nat.not_le.mp hs)] at hh
      injection hh with _ hh
      cases hh

/-- Witness for C9: a first `resetKey` of each tokenizer with twenty random
bytes delivered. -/
theorem resetKey_key_size_witness :
    (sampleCryptoPAn.key.length = 16 ∧ sampleCryptoPAn.key = sampleSupply.take 16) ∧
    (sampleHmac.key.length = 20 ∧ sampleHmac.key = sampleSupply.take 20) :=
  resetKey_key_size sampleSupply sampleSupply newCryptoPAnTokenizer sampleCryptoPAn
    newHmacTokenizer sampleHmac (by decide) (by decide)

/-- C2 fails on the code: a `resetKey` whose random read fails has already
replaced the key. After it, a tokenizer that had no key holds a buffer of zero
bytes as key and no longer answers `errNoKey`; a tokenizer that had a key holds
different key bytes, so the HMAC token of a blob and the KeyID change, while the
Crypto-PAn cipher state stays the old one. -/
theorem resetKey_failure_replaces_key :
    (newHmacTokenizer.resetKey [] = ({ key := List.replicate 20 0 }, some Err.errRand) ∧
     (newHmacTokenizer.tokenize sampleExternal [1, 2, 3, 4]).1 = Res.error Err.errNoKey ∧
     ((newHmacTokenizer.resetKey []).1.tokenize sampleExternal [1, 2, 3, 4]).1 =
       Res.ok (sampleExternal.hmacSHA256 (List.replicate 20 0) [1, 2, 3, 4])) ∧
    ((sampleHmac.resetKey [1, 2, 3]).2 = some Err.errRand ∧
     (sampleHmac.resetKey [1, 2, 3]).1 ≠ sampleHmac ∧
     ((sampleHmac.resetKey [1, 2, 3]).1.tokenize sampleExternal [1, 2, 3, 4]).1 ≠
       (sampleHmac.tokenize sampleExternal [1, 2, 3, 4]).1) ∧
    (newCryptoPAnTokenizer.resetKey [] =
       ({ cryptoPAn := none, key := List.replicate 16 0 }, some Err.errRand) ∧
     (newCryptoPAnTokenizer.tokenize sampleExternal [1, 2, 3, 4]).1 = Res.error Err.errNoKey ∧
     ((newCryptoPAnTokenizer.resetKey []).1.tokenize sampleExternal [1, 2, 3, 4]).1 ≠
       Res.error Err.errNoKey) ∧
    ((sampleCryptoPAn.resetKey [1, 2, 3]).2 = some Err.errRand ∧
     (sampleCryptoPAn.resetKey [1, 2, 3]).1.key ≠ sampleCryptoPAn.key ∧
     (sampleCryptoPAn.resetKey [1, 2, 3]).1.cryptoPAn = sampleCryptoPAn.cryptoPAn ∧
     (sampleCryptoPAn.resetKey [1, 2, 3]).1.keyID sampleExternal ≠
       sampleCryptoPAn.keyID sampleExternal) := by
  decide

/-- The newly created Crypto-PAn tokenizer is consistent. -/
theorem consistent_new : newCryptoPAnTokenizer.consistent :=
  Or.inl ⟨rfl, rfl⟩

/-- A `resetKey` that is given enough random bytes leaves the Crypto-PAn
tokenizer consistent, whatever its state was. -/
theorem consistent_resetKey_enough (supply : List Byte) (c : cryptoPAnTokenizer)
    (hs : cryptopan.Size ≤ supply.length) : (c.resetKey supply).1.consistent := by
  rw [cryptoPAn_resetKey_enough supply c hs]
  have hmin : min cryptopan.Size supply.length = cryptopan.Size := Nat.min_eq_left hs
  have hlen : (supply.take cryptopan.Size).length = cryptopan.Size := by
    rw [List.length_take, hmin]
  refine Or.inr ⟨?_, ?_, ?_⟩
  · intro h0
    have hz : (supply.take cryptopan.Size).length = 0 := by
      rw [show supply.take cryptopan.Size = [] from h0]; rfl
    rw [hlen] at hz
    cases hz
  · simp
  · show (cryptopan.New (supply.take cryptopan.Size)).toOption = _
    unfold cryptopan.New
    rw [if_pos hlen]
    rfl

/-- As long as every `resetKey` is given enough random bytes, every state
reached from a newly created Crypto-PAn tokenizer is consistent. -/
theorem consistent_run_of_enough (calls : List Call) :
    ∀ c : cryptoPAnTokenizer, c.consistent →
      (∀ supply, Call.resetKey supply ∈ calls → cryptopan.Size ≤ supply.length) →
      (c.run calls).consistent := by
  induction calls with
  | nil => intro c hc _; exact hc
  | cons call rest ih =>
    intro c hc hall
    have hrest : ∀ supply, Call.resetKey supply ∈ rest → cryptopan.Size ≤ supply.length :=
      fun supply hm => hall supply (List.mem_cons_of_mem _ hm)
    show ((c.step call).run rest).consistent
    apply ih _ _ hrest
    cases call with
    | resetKey supply =>
      exact consistent_resetKey_enough supply c (hall supply (List.mem_cons_self _ _))
    | tokenize blob => exact hc
    | tokenizeAndKeyID blob => exact hc
    | keyID => exact hc

/-- C10 fails on the code: one `resetKey` whose random read fails takes a newly
created Crypto-PAn tokenizer to a state with a non-empty key and a nil cipher
pointer, in which `tokenize` of a 4-byte blob panics; after a successful and
then a failing `resetKey` the key bytes are those of the failed attempt while
the cipher state is the one of the earlier key. -/
theorem failed_resetKey_breaks_consistency :
    ((newCryptoPAnTokenizer.run [Call.resetKey []]).key = List.replicate 16 0 ∧
     (newCryptoPAnTokenizer.run [Call.resetKey []]).cryptoPAn = none ∧
     ¬ (newCryptoPAnTokenizer.run [Call.resetKey []]).consistent ∧
     ((newCryptoPAnTokenizer.run [Call.resetKey []]).tokenize sampleExternal [10, 0, 0, 1]).1 =
       Res.panic) ∧
    ((newCryptoPAnTokenizer.run
        [Call.resetKey sampleSupply, Call.tokenize [10, 0, 0, 1], Call.resetKey [1, 2, 3]]).key =
       [1, 2, 3, 0, 0, 0, 0, 0, 0, 0, 0, 0, 0, 0, 0, 0] ∧
     (newCryptoPAnTokenizer.run
        [Call.resetKey sampleSupply, Call.tokenize [10, 0, 0, 1], Call.resetKey [1, 2, 3]]).cryptoPAn =
       some ⟨sampleSupply.take 16⟩ ∧
     ¬ (newCryptoPAnTokenizer.run
        [Call.resetKey sampleSupply, Call.tokenize [10, 0, 0, 1],
          Call.resetKey [1, 2, 3]]).consistent) := by
  decide

/-- In a consistent state of the Crypto-PAn tokenizer the KeyID that
`tokenizeAndKeyID` returns is the one of the key the cipher state, and so the
token, was built from. -/
theorem cryptoPAn_tokenizeAndKeyID_consistent (E : External) (c : cryptoPAnTokenizer)
    (blob : List Byte) (t : token) (id : Option Tokenizer.keyID) (hc : c.consistent)
    (hok : (c.tokenizeAndKeyID E blob).1 = Res.ok (t, id)) :
    ∃ ctx : cryptopan.Cryptopan, c.cryptoPAn = some ctx ∧ t = ctx.Anonymize E blob ∧
      id = some { UUID := E.uuidNewSHA1 E.uuidNamespace (E.sha256Sum256 ctx.key) } := by
  rcases hc with ⟨hkey, _⟩ | ⟨hkey, _, hnew⟩
  · rw [cryptoPAn_tokenizeAndKeyID_eq, cryptoPAn_tokenize_noKey E c blob hkey] at hok
    simp [Res.map] at hok
  · by_cases hs : blob.length = 4 ∨ blob.length = 16
    · cases hctx : c.cryptoPAn with
      | none =>
        rw [cryptoPAn_tokenizeAndKeyID_eq, cryptoPAn_tokenize_nil E c blob hkey hctx hs] at hok
        simp [Res.map] at hok
      | some ctx =>
        rw [cryptoPAn_tokenizeAndKeyID_eq, cryptoPAn_tokenize_ok E c ctx blob hkey hctx hs] at hok
        simp only [Res.map, Res.ok.injEq, Prod.mk.injEq] at hok
        have hk : ctx.key = c.key := by
          rw [hctx] at hnew
          unfold cryptopan.New at hnew
          split at hnew
          · simp only [Except.toOption, Option.some.injEq] at hnew
            rw [← hnew]
          · simp [Except.toOption] at hnew
        refine ⟨ctx, rfl, hok.1.symm, ?_⟩
        rw [← hok.2, hk]
        rfl
    · rw [cryptoPAn_tokenizeAndKeyID_eq, cryptoPAn_tokenize_badLen E c blob hkey hs] at hok
      simp [Res.map] at hok

/-- C6 fails on the code: after a successful and then a failing `resetKey` of
the Crypto-PAn tokenizer, `tokenizeAndKeyID` of a 4-byte blob returns the token
of the cipher state built from the first key, the same token as before the
failing call, together with the KeyID of the bytes the failing call left in the
key field, which is not the KeyID of the key that produced the token. -/
theorem tokenizeAndKeyID_keyID_of_overwritten_key :
    ((newCryptoPAnTokenizer.run
        [Call.resetKey sampleSupply, Call.resetKey [1, 2, 3]]).tokenizeAndKeyID
          sampleExternal [10, 0, 0, 1]).1 =
      Res.ok
        (cryptopan.Cryptopan.Anonymize sampleExternal ⟨sampleSupply.take 16⟩ [10, 0, 0, 1],
         some { UUID := sampleExternal.uuidNewSHA1 sampleExternal.uuidNamespace
                  (sampleExternal.sha256Sum256
                    [1, 2, 3, 0, 0, 0, 0, 0, 0, 0, 0, 0, 0, 0, 0, 0]) }) ∧
    ((newCryptoPAnTokenizer.run [Call.resetKey sampleSupply]).tokenizeAndKeyID
          sampleExternal [10, 0, 0, 1]).1 =
      Res.ok
        (cryptopan.Cryptopan.Anonymize sampleExternal ⟨sampleSupply.take 16⟩ [10, 0, 0, 1],
         some { UUID := sampleExternal.uuidNewSHA1 sampleExternal.uuidNamespace
                  (sampleExternal.sha256Sum256 (sampleSupply.take 16)) }) ∧
    sampleExternal.uuidNewSHA1 sampleExternal.uuidNamespace
        (sampleExternal.sha256Sum256 [1, 2, 3, 0, 0, 0, 0, 0, 0, 0, 0, 0, 0, 0, 0, 0]) ≠
      sampleExternal.uuidNewSHA1 sampleExternal.uuidNamespace
        (sampleExternal.sha256Sum256 (sampleSupply.take 16)) := by
  decide

end Tokenizer
